import Mathlib

/-!
Verification development for the ADUPlanet serve-time HTML middleware
(`functions/_middleware.ts`, v8) and its helpers.

The middleware is embedded shallowly: every `const`/helper of the source
becomes a Lean definition with the same observable behaviour; the platform
pieces the source calls into (the `Headers` object, `crypto.subtle.digest`
with SHA-256, `Date` formatting, UTF-8 encoding) are modelled concretely
below.  Machine integers are `Nat` with explicit `% 2 ^ 32` where the
source relies on 32-bit wraparound (SHA-256).
-/

namespace AduPlanet

/-- JS `s.replace(/\/$/, "")` on a character list: remove exactly one
trailing `/` when present. -/
def stripTrailingSlashL (l : List Char) : List Char :=
  if l.getLast? = some '/' then l.dropLast else l

/-- JS `s.replace(/\/$/, "")`: strip exactly one trailing slash. -/
def stripTrailingSlash (s : String) : String :=
  String.mk (stripTrailingSlashL s.toList)

/-- JS `s.replace(/^\//, "")` on a character list: remove exactly one
leading `/` when present. -/
def dropLeadingSlashL : List Char → List Char
  | '/' :: rest => rest
  | l => l

/-- JS `s.replace(/^\//, "")`: strip exactly one leading slash. -/
def dropLeadingSlash (s : String) : String :=
  String.mk (dropLeadingSlashL s.toList)

/-- JS `\w` character class together with `-`: the characters the slug
sanitiser keeps, i.e. `[A-Za-z0-9_-]` (JS `\w` is ASCII-only). -/
def isWordOrDash (c : Char) : Bool :=
  c.isAlphanum || c = '_' || c = '-'

/-- JS `s.replace(/[^\w-]/g, "-")`: every character outside
`[A-Za-z0-9_-]` becomes `-`. -/
def sanitizeSlugChars (s : String) : String :=
  String.mk (s.toList.map (fun c => if isWordOrDash c then c else '-'))

/-- Lines 96-100 of `_middleware.ts`:
`pathname = url.pathname.replace(/\/$/, "")`,
`pathForSlug = pathname || "/"` (JS falsiness: `""` picks `"/"`),
`slug = pathForSlug === "/" ? "home" : pathForSlug.replace(/^\//, "").replace(/[^\w-]/g, "-") || "home"`. -/
def slugOf (urlPath : String) : String :=
  let pathname := stripTrailingSlash urlPath
  let pathForSlug := if pathname = "" then "/" else pathname
  if pathForSlug = "/" then "home"
  else
    let s := sanitizeSlugChars (dropLeadingSlash pathForSlug)
    if s = "" then "home" else s

/-- The slug computation as the spec words it: strip exactly one trailing
slash to get `normalizedPath`; the root path maps to `"home"`; otherwise
remove the leading slash and replace every character outside
`[A-Za-z0-9_-]` by `-`, falling back to `"home"` when the result is
empty.  Stated separately so the code's `slugOf` can be proved to refine
it. -/
def slugSpecOf (urlPath : String) : String :=
  let normalizedPath := stripTrailingSlash urlPath
  if normalizedPath = "" then "home"
  else
    let s := sanitizeSlugChars (dropLeadingSlash normalizedPath)
    if s = "" then "home" else s

/-- Contiguous-sublist test on character lists. -/
def isInfixL (sub : List Char) : List Char → Bool
  | [] => sub.isEmpty
  | c :: t => sub.isPrefixOf (c :: t) || isInfixL sub t

/-- JS `String.prototype.includes`: substring containment. -/
def jsIncludes (s sub : String) : Bool :=
  isInfixL sub.toList s.toList

/-- JS `s.slice(0, n)`: the first `n` characters. -/
def jsSlice (s : String) (n : Nat) : String :=
  String.mk (s.toList.take n)

/-- Lower-casing used to model the case-insensitive `Headers` object. -/
def lowerStr (s : String) : String :=
  String.mk (s.toList.map Char.toLower)

/-- The platform `Headers` object, modelled as a lookup function keyed by
lower-cased header names (`Headers` get/set/has are case-insensitive). -/
abbrev Headers := String → Option String

/-- Model of `headers.get(name)` (case-insensitive). -/
def headerGet (hs : Headers) (name : String) : Option String :=
  hs (lowerStr name)

/-- Model of `headers.set(name, value)` (case-insensitive overwrite). -/
def headerSet (hs : Headers) (name value : String) : Headers :=
  fun m => if m = lowerStr name then some value else hs m

/-- Model of `headers.has(name)`. -/
def headerHas (hs : Headers) (name : String) : Bool :=
  (headerGet hs name).isSome

/-- The empty header map. -/
def noHeaders : Headers := fun _ => none

/-- Decimal digit character for `n % 10`. -/
def digitChar (n : Nat) : Char :=
  match n % 10 with
  | 0 => '0' | 1 => '1' | 2 => '2' | 3 => '3' | 4 => '4'
  | 5 => '5' | 6 => '6' | 7 => '7' | 8 => '8' | _ => '9'

/-- Decimal digits, most significant first; `fuel` bounds the recursion
depth and is always at least the digit count at the call sites. -/
def natDecDigitsAux : Nat → Nat → List Char
  | 0, _ => []
  | fuel + 1, n =>
    if n < 10 then [digitChar n]
    else natDecDigitsAux fuel (n / 10) ++ [digitChar (n % 10)]

/-- Decimal digits of `n`, most significant first. -/
def natDecDigits (n : Nat) : List Char :=
  natDecDigitsAux (n + 1) n

/-- JS `String(n)` for a natural number. -/
def natToString (n : Nat) : String :=
  String.mk (natDecDigits n)

/-- JS `String(n).padStart(w, "0")`: decimal rendering left-padded with
zeros to width `w`. -/
def padNat (w n : Nat) : String :=
  String.mk (List.replicate (w - (natDecDigits n).length) '0' ++ natDecDigits n)

/-- Proleptic-Gregorian civil date from days since 1970-01-01
(standard era-based conversion), restricted to the non-negative epoch
range the middleware's timestamps live in.  Returns `(year, month, day)`. -/
def civilFromDays (days : Nat) : Nat × Nat × Nat :=
  let z := days + 719468
  let era := z / 146097
  let doe := z % 146097
  let yoe := (doe - doe / 1460 + doe / 36524 - doe / 146096) / 365
  let doy := doe - (365 * yoe + yoe / 4 - yoe / 100)
  let mp := (5 * doy + 2) / 153
  let d := doy - (153 * mp + 2) / 5 + 1
  let m := if mp < 10 then mp + 3 else mp - 9
  let y := yoe + era * 400
  (if m ≤ 2 then y + 1 else y, m, d)

/-- The calendar date part `YYYY-MM-DD` of an epoch-milliseconds instant. -/
def isoDatePartOfMillis (ms : Nat) : String :=
  let c := civilFromDays (ms / 86400000)
  padNat 4 c.1 ++ "-" ++ padNat 2 c.2.1 ++ "-" ++ padNat 2 c.2.2

/-- The time-of-day part `HH:MM:SS.mmm` of an epoch-milliseconds instant. -/
def isoTimePartOfMillis (ms : Nat) : String :=
  let rem := ms % 86400000
  padNat 2 (rem / 3600000) ++ ":" ++ padNat 2 (rem % 3600000 / 60000) ++ ":" ++
    padNat 2 (rem % 60000 / 1000) ++ "." ++ padNat 3 (rem % 1000)

/-- Model of JS `new Date(ms).toISOString()`:
`YYYY-MM-DDTHH:mm:ss.sssZ` (UTC; the four-digit-year Gregorian range the
middleware's clock readings live in). -/
def isoStringOfMillis (ms : Nat) : String :=
  isoDatePartOfMillis ms ++ "T" ++ isoTimePartOfMillis ms ++ "Z"

/-- English month names, for the `en-US` long month rendering. -/
def monthName (m : Nat) : String :=
  match m with
  | 1 => "January" | 2 => "February" | 3 => "March" | 4 => "April"
  | 5 => "May" | 6 => "June" | 7 => "July" | 8 => "August"
  | 9 => "September" | 10 => "October" | 11 => "November" | _ => "December"

/-- Model of
`new Date(ms).toLocaleDateString("en-US", { month: "long", day: "numeric", year: "numeric" })`:
the deterministic `Month D, YYYY` rendering (UTC reference). -/
def humanDateOfMillis (ms : Nat) : String :=
  let c := civilFromDays (ms / 86400000)
  monthName c.2.1 ++ " " ++ natToString c.2.2 ++ ", " ++ natToString c.1

/-- Three-letter month abbreviations for `toUTCString`. -/
def monthAbbrev (m : Nat) : String :=
  match m with
  | 1 => "Jan" | 2 => "Feb" | 3 => "Mar" | 4 => "Apr" | 5 => "May" | 6 => "Jun"
  | 7 => "Jul" | 8 => "Aug" | 9 => "Sep" | 10 => "Oct" | 11 => "Nov" | _ => "Dec"

/-- Three-letter weekday names; 1970-01-01 was a Thursday, so the weekday
index of an epoch day count is `(days + 4) % 7` with `0 = Sunday`. -/
def weekdayName (w : Nat) : String :=
  match w with
  | 0 => "Sun" | 1 => "Mon" | 2 => "Tue" | 3 => "Wed" | 4 => "Thu"
  | 5 => "Fri" | _ => "Sat"

/-- Model of JS `new Date(ms).toUTCString()`:
`Www, DD Mmm YYYY HH:MM:SS GMT`. -/
def toUTCStringOfMillis (ms : Nat) : String :=
  let days := ms / 86400000
  let c := civilFromDays days
  let rem := ms % 86400000
  weekdayName ((days + 4) % 7) ++ ", " ++ padNat 2 c.2.2 ++ " " ++
    monthAbbrev c.2.1 ++ " " ++ padNat 4 c.1 ++ " " ++
    padNat 2 (rem / 3600000) ++ ":" ++ padNat 2 (rem % 3600000 / 60000) ++ ":" ++
    padNat 2 (rem % 60000 / 1000) ++ " GMT"

/-- UTF-8 encoding of one character (model of `TextEncoder`), as byte
values. -/
def utf8Encode (c : Char) : List Nat :=
  let n := c.toNat
  if n < 128 then [n]
  else if n < 2048 then [192 + n / 64, 128 + n % 64]
  else if n < 65536 then [224 + n / 4096, 128 + n / 64 % 64, 128 + n % 64]
  else [240 + n / 262144, 128 + n / 4096 % 64, 128 + n / 64 % 64, 128 + n % 64]

/-- Model of `new TextEncoder().encode(s)`: the UTF-8 bytes of `s`. -/
def utf8Bytes (s : String) : List Nat :=
  (s.toList.map utf8Encode).flatten

/-- 32-bit addition. -/
def add32 (a b : Nat) : Nat := (a + b) % 4294967296

/-- 32-bit right rotation of a word `x < 2 ^ 32` by `n` bits. -/
def rotr32 (n x : Nat) : Nat := x / 2 ^ n + x % 2 ^ n * 2 ^ (32 - n)

/-- SHA-256 small sigma 0. -/
def ssig0 (x : Nat) : Nat := (rotr32 7 x) ^^^ (rotr32 18 x) ^^^ (x / 2 ^ 3)

/-- SHA-256 small sigma 1. -/
def ssig1 (x : Nat) : Nat := (rotr32 17 x) ^^^ (rotr32 19 x) ^^^ (x / 2 ^ 10)

/-- SHA-256 big sigma 0. -/
def bsig0 (x : Nat) : Nat := (rotr32 2 x) ^^^ (rotr32 13 x) ^^^ (rotr32 22 x)

/-- SHA-256 big sigma 1. -/
def bsig1 (x : Nat) : Nat := (rotr32 6 x) ^^^ (rotr32 11 x) ^^^ (rotr32 25 x)

/-- SHA-256 choice function. -/
def shaCh (x y z : Nat) : Nat := (x &&& y) ^^^ ((4294967295 ^^^ x) &&& z)

/-- SHA-256 majority function. -/
def shaMaj (x y z : Nat) : Nat := (x &&& y) ^^^ (x &&& z) ^^^ (y &&& z)

/-- The 64 SHA-256 round constants. -/
def shaK : List Nat :=
  [1116352408, 1899447441, 3049323471, 3921009573, 961987163,
   1508970993, 2453635748, 2870763221, 3624381080, 310598401,
   607225278, 1426881987, 1925078388, 2162078206, 2614888103,
   3248222580, 3835390401, 4022224774, 264347078, 604807628,
   770255983, 1249150122, 1555081692, 1996064986, 2554220882,
   2821834349, 2952996808, 3210313671, 3336571891, 3584528711,
   113926993, 338241895, 666307205, 773529912, 1294757372,
   1396182291, 1695183700, 1986661051, 2177026350, 2456956037,
   2730485921, 2820302411, 3259730800, 3345764771, 3516065817,
   3600352804, 4094571909, 275423344, 430227734, 506948616,
   659060556, 883997877, 958139571, 1322822218, 1537002063,
   1747873779, 1955562222, 2024104815, 2227730452, 2361852424,
   2428436474, 2756734187, 3204031479, 3329325298]

/-- The SHA-256 working state: eight 32-bit words. -/
structure Sha256State where
  a : Nat
  b : Nat
  c : Nat
  d : Nat
  e : Nat
  f : Nat
  g : Nat
  h : Nat

/-- The SHA-256 initial hash value. -/
def shaH0 : Sha256State :=
  ⟨1779033703, 3144134277, 1013904242, 2773480762, 1359893119, 2600822924, 528734635, 1541459225⟩

/-- SHA-256 padding: append `0x80`, zero bytes to 56 mod 64, then the
64-bit big-endian bit length. -/
def sha256Pad (msg : List Nat) : List Nat :=
  let L := msg.length
  let k := (120 - (L + 1) % 64) % 64
  let bitLen := 8 * L
  msg ++ [128] ++ List.replicate k 0 ++
    [bitLen / 2 ^ 56 % 256, bitLen / 2 ^ 48 % 256, bitLen / 2 ^ 40 % 256, bitLen / 2 ^ 32 % 256,
     bitLen / 2 ^ 24 % 256, bitLen / 2 ^ 16 % 256, bitLen / 2 ^ 8 % 256, bitLen % 256]

/-- Split a byte list into 64-byte blocks; `fuel` bounds the recursion
and is at least the byte count at the call site, so the zero-fuel case is
unreachable for non-empty lists. -/
def toBlocksAux : Nat → List Nat → List (List Nat)
  | _, [] => []
  | 0, bs => [bs]
  | fuel + 1, bs => bs.take 64 :: toBlocksAux fuel (bs.drop 64)

/-- Split a byte list into 64-byte blocks. -/
def toBlocks (bs : List Nat) : List (List Nat) :=
  toBlocksAux bs.length bs

/-- Big-endian 32-bit words of a byte block; `fuel` bounds the recursion
and is at least the byte count at the call site. -/
def blockWordsAux : Nat → List Nat → List Nat
  | _, [] => []
  | 0, _ => []
  | fuel + 1, block =>
    (block.getD 0 0 * 2 ^ 24 + block.getD 1 0 * 2 ^ 16 + block.getD 2 0 * 2 ^ 8 + block.getD 3 0)
      :: blockWordsAux fuel (block.drop 4)

/-- Big-endian 32-bit words of a 64-byte block. -/
def blockWords (block : List Nat) : List Nat :=
  blockWordsAux block.length block

/-- One message-schedule extension step: append
`sigma1 W[n-2] + W[n-7] + sigma0 W[n-15] + W[n-16]` (mod `2 ^ 32`). -/
def scheduleStep (acc : List Nat) : List Nat :=
  let n := acc.length
  acc ++ [add32 (add32 (ssig1 (acc.getD (n - 2) 0)) (acc.getD (n - 7) 0))
               (add32 (ssig0 (acc.getD (n - 15) 0)) (acc.getD (n - 16) 0))]

/-- Full 64-word message schedule of a block. -/
def fullSchedule (ws : List Nat) : List Nat :=
  (List.range 48).foldl (fun acc _ => scheduleStep acc) ws

/-- One SHA-256 compression round on the working variables. -/
def shaRound (st : Sha256State) (kw : Nat × Nat) : Sha256State :=
  let t1 := add32 (add32 (add32 st.h (bsig1 st.e)) (add32 (shaCh st.e st.f st.g) kw.1)) kw.2
  let t2 := add32 (bsig0 st.a) (shaMaj st.a st.b st.c)
  ⟨add32 t1 t2, st.a, st.b, st.c, add32 st.d t1, st.e, st.f, st.g⟩

/-- Compress one 64-byte block into the running hash state. -/
def compressBlock (st : Sha256State) (block : List Nat) : Sha256State :=
  let w := fullSchedule (blockWords block)
  let r := (shaK.zip w).foldl shaRound st
  ⟨add32 st.a r.a, add32 st.b r.b, add32 st.c r.c, add32 st.d r.d,
   add32 st.e r.e, add32 st.f r.f, add32 st.g r.g, add32 st.h r.h⟩

/-- Big-endian bytes of one 32-bit word. -/
def wordBytes (w : Nat) : List Nat :=
  [w / 2 ^ 24 % 256, w / 2 ^ 16 % 256, w / 2 ^ 8 % 256, w % 256]

/-- The 32 digest bytes of a final hash state. -/
def digestBytes (st : Sha256State) : List Nat :=
  ([st.a, st.b, st.c, st.d, st.e, st.f, st.g, st.h].map wordBytes).flatten

/-- SHA-256 digest (as 32 bytes) of a byte message — model of
`crypto.subtle.digest("SHA-256", bytes)`. -/
def sha256 (msg : List Nat) : List Nat :=
  digestBytes ((toBlocks (sha256Pad msg)).foldl compressBlock shaH0)

/-- Lower-case hex digit character for `n % 16` (as produced by JS
`b.toString(16)`). -/
def hexDigit (n : Nat) : Char :=
  match n % 16 with
  | 0 => '0' | 1 => '1' | 2 => '2' | 3 => '3' | 4 => '4' | 5 => '5' | 6 => '6' | 7 => '7'
  | 8 => '8' | 9 => '9' | 10 => 'a' | 11 => 'b' | 12 => 'c' | 13 => 'd' | 14 => 'e' | _ => 'f'

/-- JS `b.toString(16).padStart(2, "0")` for a byte `b < 256`: exactly two
hex digits. -/
def hexByte (b : Nat) : List Char :=
  [hexDigit (b / 16), hexDigit b]

/-- Lines 174-175 of `_middleware.ts`: the hex rendering of the SHA-256
digest of the UTF-8 bytes of `s`
(`Array.from(new Uint8Array(digest)).map(b => b.toString(16).padStart(2, "0")).join("")`). -/
def sha256Hex (s : String) : String :=
  String.mk (((sha256 (utf8Bytes s)).map hexByte).flatten)

/-- The JS whitespace class matched by regex escape-s and by `trim()`
(ECMAScript WhiteSpace and LineTerminator code points). -/
def isJsSpace (c : Char) : Bool :=
  c = ' ' || c = '\t' || c = '\n' || c = '\r' ||
  c.toNat = 11 || c.toNat = 12 || c.toNat = 160 || c.toNat = 5760 ||
  (8192 ≤ c.toNat && c.toNat ≤ 8202) || c.toNat = 8232 || c.toNat = 8233 ||
  c.toNat = 8239 || c.toNat = 8287 || c.toNat = 12288 || c.toNat = 65279

/-- JS `s.trim()`. -/
def jsTrim (s : String) : String :=
  String.mk (((s.toList.dropWhile isJsSpace).reverse.dropWhile isJsSpace).reverse)

/-- The `[0-9T:\-+.Z]` value class of the dateModified regex. -/
def isDateValueChar (c : Char) : Bool :=
  c.isDigit || c = 'T' || c = ':' || c = '-' || c = '+' || c = '.' || c = 'Z'

/-- Attempt to match `"dateModified"\s*:\s*"[0-9T:\-+.Z]+"` at the head
of `l`; on success, the remainder after the match.  The regex is
deterministic: each greedy quantifier's class excludes the character that
must follow it, so maximal munch coincides with backtracking regex
semantics. -/
def matchDateModified (l : List Char) : Option (List Char) :=
  let key := "\"dateModified\"".toList
  if key.isPrefixOf l then
    match (l.drop key.length).dropWhile isJsSpace with
    | ':' :: l3 =>
      match (l3.dropWhile isJsSpace) with
      | '"' :: l5 =>
        match l5.takeWhile isDateValueChar, l5.dropWhile isDateValueChar with
        | [], _ => none
        | _ :: _, '"' :: l6 => some l6
        | _ :: _, _ => none
      | _ => none
    | _ => none
  else none

/-- Leftmost, non-overlapping global replacement of the dateModified
pattern by `repl`; `fuel` bounds the scan and is the input length at the
call site (every step consumes at least one character, so fuel never runs
out). -/
def replaceDateModifiedAux (repl : List Char) : Nat → List Char → List Char
  | _, [] => []
  | 0, c :: t => c :: t
  | fuel + 1, c :: t =>
    match matchDateModified (c :: t) with
    | some rest => repl ++ replaceDateModifiedAux repl fuel rest
    | none => c :: replaceDateModifiedAux repl fuel t

/-- Line 160 of `_middleware.ts`:
`src.replace(/"dateModified"\s*:\s*"[0-9T:\-+.Z]+"/g, "dateModified-colon-isoDate-literal")`;
the handler writes `patched` back only when it differs from `src`, so the
resulting text content is always `patched`. -/
def replaceDateModified (isoDate : String) (src : String) : String :=
  String.mk (replaceDateModifiedAux
    ("\"dateModified\":\"" ++ isoDate ++ "\"").toList src.toList.length src.toList)

/-- Whether the dateModified pattern matches anywhere in `src` (used to
state the no-occurrence case of the spec). -/
def hasDateModifiedAux : Nat → List Char → Bool
  | _, [] => false
  | 0, _ :: _ => false
  | fuel + 1, c :: t => (matchDateModified (c :: t)).isSome || hasDateModifiedAux fuel t

/-- Whether the dateModified pattern matches anywhere in `src`. -/
def hasDateModified (src : String) : Bool :=
  hasDateModifiedAux src.toList.length src.toList

/-- A streamed HTML element as the rewriter handlers see it: its
attributes, the content appended after its children via `el.append`, and
the replacement inner content set via `el.setInnerContent` (if any). -/
structure Element where
  attrs : String → Option String
  appendedContent : List String
  innerContent : Option String

/-- Model of `el.getAttribute(name)`. -/
def elGetAttribute (el : Element) (name : String) : Option String :=
  el.attrs name

/-- Model of `el.setAttribute(name, value)`. -/
def elSetAttribute (el : Element) (name value : String) : Element :=
  ⟨fun m => if m = name then some value else el.attrs m, el.appendedContent, el.innerContent⟩

/-- Model of `el.append(content, html := true)`: content accumulates in
document order. -/
def elAppend (el : Element) (content : String) : Element :=
  ⟨el.attrs, el.appendedContent ++ [content], el.innerContent⟩

/-- Model of `el.setInnerContent(content, html := true)`. -/
def elSetInnerContent (el : Element) (content : String) : Element :=
  ⟨el.attrs, el.appendedContent, some content⟩

/-- The primary stylesheet link tag appended by the head rule (line 114). -/
def cssLinkTag (href : String) : String :=
  "<link rel=\"stylesheet\" href=\"" ++ href ++ "\" data-injected>"

/-- The force-light stylesheet link tag (line 122). -/
def forceCssLinkTag (href : String) : String :=
  "<link rel=\"stylesheet\" href=\"" ++ href ++ "\" data-injected=\"force-light\">"

/-- The inline fallback style tag appended when no stylesheet asset
exists (line 117). -/
def fallbackStyleTag : String :=
  "<style>header .links\x7bdisplay:flex;gap:18px;align-items:center\x7dheader .links a\x7bdisplay:inline-block;padding:8px 12px;border-radius:10px;text-decoration:none;color:inherit\x7d</style>"

/-- The og-updated-time meta tag (line 124). -/
def ogUpdatedMetaTag (isoFull : String) : String :=
  "<meta property=\"og:updated_time\" content=\"" ++ isoFull ++ "\">"

/-- Lines 111-126: the `head` element handler.  Appends the primary
stylesheet link (or the inline fallback style), then the force-light link
when present, then the updated-time meta tag. -/
def headHandler (cssHref forceCssHref : Option String) (isoFull : String) (el : Element) : Element :=
  let el1 :=
    match cssHref with
    | some href => elAppend el (cssLinkTag href)
    | none => elAppend el fallbackStyleTag
  let el2 :=
    match forceCssHref with
    | some href => elAppend el1 (forceCssLinkTag href)
    | none => el1
  elAppend el2 (ogUpdatedMetaTag isoFull)

/-- Lines 128-135: the `body` element handler. -/
def bodyHandler (slug : String) (el : Element) : Element :=
  let cls := jsTrim ((elGetAttribute el "class").getD "")
  let nextCls := (if cls = "" then "" else cls ++ " ") ++ "force-light page-" ++ slug
  elSetAttribute (elSetAttribute el "class" nextCls) "data-route" slug

/-- Lines 140-148: the `header nav a` handler; `pathname` is the request
path with one trailing slash stripped. -/
def anchorHandler (pathname : String) (el : Element) : Element :=
  let href := stripTrailingSlash ((elGetAttribute el "href").getD "")
  let cur := pathname
  if href = cur ∨ (href = "" ∧ cur = "") then elSetAttribute el "aria-current" "page" else el

/-- Lines 150-155: the `time[data-global-freshness]` handler. -/
def timeHandler (isoDate human : String) (el : Element) : Element :=
  elSetInnerContent (elSetAttribute el "datetime" isoDate) human

/-- Lines 40-63: the built-in header fallback fragment. -/
def fallbackHeaderHTML : String :=
  "\n    <nav class=\"wrap nav\" role=\"navigation\" aria-label=\"Primary\">\n      <a class=\"brand\" href=\"/\" aria-label=\"ADUPlanet Home\">\n        <img src=\"/assets/logo.png\" alt=\"ADUPlanet logo\" width=\"120\" height=\"32\" />\n      </a>\n      <div class=\"links\">\n        <a href=\"/costs\">Costs</a>\n        <a href=\"/regulations\">Regulations</a>\n        <a href=\"/builders\">Builders</a>\n        <a href=\"/financing\">Financing</a>\n        <a href=\"/blog/\">Blog</a>\n      </div>\n    </nav>\n    <style>\n      header\x7bbackground:rgba(255,255,255,.92);color:var(--ink,#0b0f19);\n        border-bottom:1px solid var(--line,#cbd5e1);backdrop-filter:saturate(1.2) blur(8px)\x7d\n      header .nav\x7bdisplay:flex;align-items:center;justify-content:space-between;gap:16px;padding:16px 0\x7d\n      header .brand\x7bdisplay:inline-flex;align-items:center;gap:10px\x7d\n      header .brand img\x7bheight:clamp(30px,4.2vw,42px);width:auto;display:block\x7d\n      header .links\x7bdisplay:flex;gap:16px;flex-wrap:wrap;align-items:center\x7d\n      header .links a\x7bcolor:var(--ink,#0b0f19);text-decoration:none;padding:10px 12px;border-radius:12px\x7d\n      header .links a:hover\x7btext-decoration:underline\x7d\n      header nav a[aria-current=\"page\"]\x7bbackground:#f8fafc;outline:1px solid var(--line,#cbd5e1)\x7d\n    </style>"

/-- Lines 67-85: the built-in footer fallback fragment. -/
def fallbackFooterHTML : String :=
  "\n    <div class=\"wrap\">\n      <nav class=\"footer-links\" aria-label=\"Footer\">\n        <a href=\"/about\">About</a>\n        <a href=\"/privacy\">Privacy</a>\n        <a href=\"/builders\">Find Builders</a>\n      </nav>\n      <p class=\"freshness\">Updated <time data-global-freshness datetime=\"2025-08-27\">August 27, 2025</time>.</p>\n    </div>\n    <style>\n      footer.site-footer\x7bbackground:var(--surface,#fff);color:var(--muted,#1f2937);\n        border-top:1px solid var(--line,#cbd5e1);padding:28px 0 40px\x7d\n      footer.site-footer .wrap\x7bmax-width:1120px;margin:0 auto;padding:0 20px\x7d\n      footer.site-footer .footer-links\x7bdisplay:flex;gap:14px;flex-wrap:wrap;align-items:center\x7d\n      footer.site-footer a\x7bcolor:var(--link,#1e40af);text-decoration:none\x7d\n      footer.site-footer a:hover\x7btext-decoration:underline\x7d\n      footer.site-footer a:visited\x7bcolor:var(--link-visited,#6b21a8)\x7d\n      footer.site-footer .freshness\x7bmargin-top:10px;font-size:clamp(14px,.9rem,16px);color:var(--muted,#1f2937)\x7d\n    </style>"


/-- The `ASSETS` content store: logical path to the text payload of a
successful (`r.ok`) fetch.  `none` models a missing binding, a non-ok
response, or a thrown error — `getAsset` (lines 21-27) returns `null` and
`assetExists` (lines 28-33) returns `false` in all those cases. -/
abbrev AssetStore := String → Option String

/-- Lines 36-64: the header partial, falling back to the built-in
fragment when the asset is absent or its text is empty (JS falsiness of
`headerHTML`). -/
def selectHeaderHTML (assets : AssetStore) : String :=
  match assets "/partials/header.html" with
  | some s => if s = "" then fallbackHeaderHTML else s
  | none => fallbackHeaderHTML

/-- Lines 37-86: the footer partial with the built-in fallback. -/
def selectFooterHTML (assets : AssetStore) : String :=
  match assets "/partials/footer.html" with
  | some s => if s = "" then fallbackFooterHTML else s
  | none => fallbackFooterHTML

/-- Lines 89-91: the primary stylesheet href —
`/styles/main.css` if that asset exists, else `/styles/main` if that
exists, else `null`. -/
def cssHrefOf (assets : AssetStore) : Option String :=
  if (assets "/styles/main.css").isSome then some "/styles/main.css"
  else if (assets "/styles/main").isSome then some "/styles/main"
  else none

/-- Line 93: the force-light stylesheet href. -/
def forceCssHrefOf (assets : AssetStore) : Option String :=
  if (assets "/styles/force-light.css").isSome then some "/styles/force-light.css" else none

/-- Lines 102-106: the per-request timestamps, all derived from the one
captured instant `now`. -/
structure Freshness where
  isoFull : String
  isoDate : String
  human : String

/-- Lines 102-106: `now = new Date()`, `isoFull = now.toISOString()`,
`isoDate = isoFull.slice(0, 10)`, `human = now.toLocaleDateString(...)`. -/
def freshnessOfMillis (ms : Nat) : Freshness :=
  ⟨isoStringOfMillis ms, jsSlice (isoStringOfMillis ms) 10, humanDateOfMillis ms⟩

/-- An HTTP response: status, status text, headers, body (`none` is a
null body). -/
structure Resp where
  status : Nat
  statusText : String
  headers : Headers
  body : Option String

/-- The per-request world the middleware runs in: the request method and
path, the origin response produced by `next()`, the `ASSETS` store, the
clock (read `k` of `clock` is the `k`-th wall-clock read: read 0 is
`new Date()` at line 103, read 1 is `Date.now()` at line 179) and the
optional `CF_PAGES_COMMIT_TIME` build instant (an epoch-millisecond
value; `some 0` is JS-falsy for the `||` at line 179). -/
structure Env where
  method : String
  urlPath : String
  origin : Resp
  assets : AssetStore
  clock : Nat → Nat
  commitTime : Option Nat

/-- Lines 166-195: the response finalizer.  Materializes the transformed
body, adds the debug marker, the weak ETag over the body bytes, the
Last-Modified, Cache-Control, and the defaulted Referrer-Policy and
Content-Type, and re-emits status and status text.  The method is not
consulted anywhere. -/
def finalize (env : Env) (pipeStatus : Nat) (pipeStatusText : String)
    (pipeHeaders : Headers) (finalBody : String) : Resp :=
  let headers1 := headerSet pipeHeaders "x-aduplanet-injected" "1"
  let hex := sha256Hex finalBody
  let headers2 := headerSet headers1 "ETag" ("W/\"" ++ jsSlice hex 16 ++ "\"")
  let lm :=
    match env.commitTime with
    | some t => if t = 0 then env.clock 1 else t
    | none => env.clock 1
  let headers3 := headerSet headers2 "Last-Modified" (toUTCStringOfMillis lm)
  let headers4 := headerSet headers3 "Cache-Control" "public, max-age=0, must-revalidate"
  let headers5 :=
    if headerHas headers4 "referrer-policy" then headers4
    else headerSet headers4 "referrer-policy" "strict-origin-when-cross-origin"
  let headers6 :=
    if headerHas headers5 "content-type" then headers5
    else headerSet headers5 "content-type" "text/html; charset=utf-8"
  ⟨pipeStatus, pipeStatusText, headers6, some finalBody⟩

/-- The rewrite-rule set installed on the streaming pass (lines 109-163),
with all per-request values bound.  Each field is the handler for one
selector. -/
structure RuleSet where
  headRule : Element → Element
  bodyRule : Element → Element
  headerRule : Element → Element
  footerRule : Element → Element
  navAnchorRule : Element → Element
  timeRule : Element → Element
  ldJsonRule : String → String

/-- Lines 36-163: the rule set built for one request. -/
def rulesOf (env : Env) : RuleSet :=
  let fresh := freshnessOfMillis (env.clock 0)
  let pathname := stripTrailingSlash env.urlPath
  let slug := slugOf env.urlPath
  { headRule := headHandler (cssHrefOf env.assets) (forceCssHrefOf env.assets) fresh.isoFull
    bodyRule := bodyHandler slug
    headerRule := fun el => elSetInnerContent el (selectHeaderHTML env.assets)
    footerRule := fun el => elSetInnerContent el (selectFooterHTML env.assets)
    navAnchorRule := anchorHandler pathname
    timeRule := timeHandler fresh.isoDate fresh.human
    ldJsonRule := replaceDateModified fresh.isoDate }

/-- Lines 11-196: the middleware entrypoint.  The streaming rewriter is
platform code; it feeds the origin body through `rulesOf` and preserves
the origin status, status text and headers, and its materialized output
bytes (`await rewrittenRes.text()`, line 167) enter here as `finalBody`.
The second component is the sequence of asset-store paths fetched, in
issue order: lines 36-37 fetch the partials, lines 89-93 probe the
stylesheets (`/styles/main` only when `/styles/main.css` is absent, by
`?:` short-circuit).  A non-HTML origin returns unchanged before any of
those fetches (line 18). -/
def onRequest (env : Env) (finalBody : String) : Resp × List String :=
  let ctype := (headerGet env.origin.headers "content-type").getD ""
  if jsIncludes ctype "text/html" = false then (env.origin, [])
  else
    ((finalize env env.origin.status env.origin.statusText env.origin.headers finalBody),
     ["/partials/header.html", "/partials/footer.html", "/styles/main.css"] ++
       (if (env.assets "/styles/main.css").isSome then [] else ["/styles/main"]) ++
       ["/styles/force-light.css"])


/-- JSON insignificant whitespace. -/
def isJsonWs (c : Char) : Bool :=
  c = ' ' || c = '\t' || c = '\n' || c = '\r'

/-- Skip JSON whitespace. -/
def jsonSkipWs (l : List Char) : List Char :=
  l.dropWhile isJsonWs

/-- Hexadecimal digit test. -/
def isHexChar (c : Char) : Bool :=
  c.isDigit || ('a' ≤ c && c ≤ 'f') || ('A' ≤ c && c ≤ 'F')

/-- Parse the rest of a JSON string after the opening quote; returns the
remainder after the closing quote. -/
def jsonStringBody : List Char → Option (List Char)
  | [] => none
  | c :: rest =>
    if c = '"' then some rest
    else if c = '\\' then
      match rest with
      | [] => none
      | e :: rest2 =>
        if e = 'u' then
          match rest2 with
          | h1 :: h2 :: h3 :: h4 :: rest3 =>
            if isHexChar h1 && isHexChar h2 && isHexChar h3 && isHexChar h4 then
              jsonStringBody rest3
            else none
          | _ => none
        else if e = '"' ∨ e = '\\' ∨ e = '/' ∨ e = 'b' ∨ e = 'f' ∨ e = 'n' ∨ e = 'r' ∨ e = 't' then
          jsonStringBody rest2
        else none
    else if 32 ≤ c.toNat then jsonStringBody rest else none

/-- One-or-more decimal digits, returning the remainder. -/
def jsonDigitsTail (l : List Char) : Option (List Char) :=
  if (l.takeWhile Char.isDigit).isEmpty then none else some (l.dropWhile Char.isDigit)

/-- Optional exponent part of a JSON number. -/
def jsonExpPart (l : List Char) : Option (List Char) :=
  match l with
  | c :: rest =>
    if c = 'e' ∨ c = 'E' then
      match rest with
      | s :: rest2 => if s = '+' ∨ s = '-' then jsonDigitsTail rest2 else jsonDigitsTail rest
      | [] => none
    else some l
  | [] => some l

/-- Optional fraction part of a JSON number. -/
def jsonFracPart (l : List Char) : Option (List Char) :=
  match l with
  | '.' :: rest => jsonDigitsTail rest
  | _ => some l

/-- A JSON number. -/
def jsonNumber (l : List Char) : Option (List Char) :=
  let l1 := match l with | '-' :: t => t | _ => l
  match l1 with
  | '0' :: t => (jsonFracPart t).bind jsonExpPart
  | c :: t =>
    if c.isDigit then ((jsonFracPart (t.dropWhile Char.isDigit)).bind jsonExpPart) else none
  | [] => none

/-- Parsing modes of the JSON grammar walker. -/
inductive JsonMode where
  | value
  | memberLoop
  | elemLoop

/-- Fuel-bounded recursive-descent walk of RFC 8259 JSON: `value` parses
one value, `memberLoop` the members of an object after its opening brace
(first key expected), `elemLoop` the elements of an array.  Fuel drops by
one per nested step and at least one input character is consumed per two
steps, so `2 * length + 2` fuel at the top level never runs out. -/
def jsonRun : JsonMode → Nat → List Char → Option (List Char)
  | _, 0, _ => none
  | .value, fuel + 1, l =>
    match l with
    | [] => none
    | '"' :: rest => jsonStringBody rest
    | '\x7b' :: rest =>
      match jsonSkipWs rest with
      | '\x7d' :: r => some r
      | l2 => jsonRun .memberLoop fuel l2
    | '[' :: rest =>
      match jsonSkipWs rest with
      | ']' :: r => some r
      | l2 => jsonRun .elemLoop fuel l2
    | _ =>
      if "true".toList.isPrefixOf l then some (l.drop 4)
      else if "false".toList.isPrefixOf l then some (l.drop 5)
      else if "null".toList.isPrefixOf l then some (l.drop 4)
      else jsonNumber l
  | .memberLoop, fuel + 1, l =>
    match l with
    | '"' :: rest =>
      match jsonStringBody rest with
      | some r1 =>
        match jsonSkipWs r1 with
        | ':' :: r2 =>
          match jsonRun .value fuel (jsonSkipWs r2) with
          | some r3 =>
            match jsonSkipWs r3 with
            | ',' :: r4 => jsonRun .memberLoop fuel (jsonSkipWs r4)
            | '\x7d' :: r4 => some r4
            | _ => none
          | none => none
        | _ => none
      | none => none
    | _ => none
  | .elemLoop, fuel + 1, l =>
    match jsonRun .value fuel l with
    | some r1 =>
      match jsonSkipWs r1 with
      | ',' :: r2 => jsonRun .elemLoop fuel (jsonSkipWs r2)
      | ']' :: r2 => some r2
      | _ => none
    | none => none

/-- Decidable JSON syntax validity: one value, optional surrounding
whitespace, all input consumed. -/
def isValidJson (s : String) : Bool :=
  match jsonRun JsonMode.value (2 * s.toList.length + 2) (jsonSkipWs s.toList) with
  | some rest => (jsonSkipWs rest).isEmpty
  | none => false

theorem isValidJson_tests :
    isValidJson "\x7b\"a\":[1,2.5e3,\"x\",true,null,\x7b\x7d]\x7d" = true ∧
    isValidJson "\x7b\"a\":1,\x7d" = false ∧
    isValidJson "\x7b\"dateModified\":\"2024-01-01T00:00:00.000Z\"\x7d" = true ∧
    isValidJson "nope" = false ∧
    isValidJson " -12.5e-7 " = true ∧
    isValidJson "\"unterminated" = false := by decide

/-- Character class of the first ten characters of an ISO instant string:
decimal digits and the hyphen. -/
def isIsoDateChar (c : Char) : Bool :=
  (48 ≤ c.toNat && c.toNat ≤ 57) || c = '-'

/-- Line 179 of `_middleware.ts`: the instant Last-Modified is derived
from — `CF_PAGES_COMMIT_TIME || Date.now()`, i.e. the commit instant when
present and JS-truthy, else a fresh clock read (read index 1). -/
def lmOf (env : Env) : Nat :=
  match env.commitTime with
  | some t => if t = 0 then env.clock 1 else t
  | none => env.clock 1

/-- The spec's wording of the head insertions, first slot: the primary
stylesheet link when a primary stylesheet asset exists, else the inline
fallback style. -/
def primaryHeadTags : Option String → List String
  | some href => [cssLinkTag href]
  | none => [fallbackStyleTag]

/-- The spec's wording of the head insertions, second slot: the
force-light link when that asset exists, else nothing. -/
def forceHeadTags : Option String → List String
  | some href => [forceCssLinkTag href]
  | none => []

/-- A nav anchor element carrying only an `href` attribute. -/
def navAnchor (href : String) : Element :=
  ⟨fun n => if n = "href" then some href else none, [], none⟩

/-- The structured-data block of the spec's concrete test: exactly one
`dateModified` occurrence and nothing else matching. -/
def ldTestBlock : String := "\x7b\"dateModified\":\"2024-01-01T00:00:00.000Z\"\x7d"

/-- Headers of a plain HTML origin response. -/
def htmlHeaders : Headers :=
  fun n => if n = "content-type" then some "text/html; charset=utf-8" else none

/-- A concrete HTML origin response. -/
def htmlOrigin : Resp :=
  ⟨200, "OK", htmlHeaders, some "<html><head></head><body></body></html>"⟩

/-- A concrete HEAD request against the HTML origin (no assets, constant
clock, no commit instant). -/
def envHead : Env := ⟨"HEAD", "/financing", htmlOrigin, fun _ => none, fun _ => 0, none⟩

/-- A concrete GET request against the HTML origin. -/
def envGet : Env := ⟨"GET", "/financing", htmlOrigin, fun _ => none, fun _ => 0, none⟩

/-- A concrete non-HTML (JSON) origin response and request. -/
def jsonOrigin : Resp :=
  ⟨200, "OK", (fun n => if n = "content-type" then some "application/json" else none), some "[]"⟩

/-- A GET request whose origin response is JSON. -/
def envJson : Env := ⟨"GET", "/financing", jsonOrigin, fun _ => none, fun _ => 0, none⟩

/-- An origin response with no content-type header at all. -/
def noCtOrigin : Resp := ⟨200, "OK", noHeaders, some "payload"⟩

/-- A GET request whose origin response carries no content-type header. -/
def envNoCt : Env := ⟨"GET", "/", noCtOrigin, fun _ => none, fun _ => 0, none⟩

/-- A GET request whose two clock reads differ by one day (read 0 at the
epoch, read 1 a day later), with no commit instant supplied. -/
def envClockSkew : Env :=
  ⟨"GET", "/", htmlOrigin, fun _ => none, fun k => k * 86400000, none⟩

/-- An asset store whose partial fetches succeed with empty text. -/
def emptyPartialAssets : AssetStore :=
  fun p => if p = "/partials/header.html" ∨ p = "/partials/footer.html" then some "" else none

/-- A GET request whose partial assets fetch successfully but are empty. -/
def envEmptyPartials : Env :=
  ⟨"GET", "/", htmlOrigin, emptyPartialAssets, fun _ => 0, none⟩

/-- A GET request with every asset absent. -/
def envNoAssets : Env := ⟨"GET", "/", htmlOrigin, fun _ => none, fun _ => 0, none⟩

/-- An element with no attributes, appended content, or inner content. -/
def blankEl : Element := ⟨fun _ => none, [], none⟩

end AduPlanet

namespace AduPlanet

theorem slug_refines_spec (p : String) : slugOf p = slugSpecOf p := by
  unfold slugOf slugSpecOf
  by_cases h0 : stripTrailingSlash p = ""
  · simp [h0]
  · by_cases h1 : stripTrailingSlash p = "/"
    · simp [h0, h1, dropLeadingSlash, dropLeadingSlashL, sanitizeSlugChars]
    · simp [h0, h1]

theorem headerGet_headerSet (hs : Headers) (n v m : String) :
    headerGet (headerSet hs n v) m =
      if lowerStr m = lowerStr n then some v else headerGet hs m := by
  simp [headerGet, headerSet]

theorem headerGet_set_ne (hs : Headers) (n v m : String) (h : ¬ lowerStr m = lowerStr n) :
    headerGet (headerSet hs n v) m = headerGet hs m := by
  rw [headerGet_headerSet, if_neg h]

theorem headerGet_set_eq (hs : Headers) (n v m : String) (h : lowerStr m = lowerStr n) :
    headerGet (headerSet hs n v) m = some v := by
  rw [headerGet_headerSet, if_pos h]

theorem headerGet_ite {c : Prop} [Decidable c] (hs : Headers) (n v m : String)
    (h : ¬ lowerStr m = lowerStr n) :
    headerGet (if c then hs else headerSet hs n v) m = headerGet hs m := by
  split
  · rfl
  · rw [headerGet_set_ne hs n v m h]

theorem finalize_body (env : Env) (ps : Nat) (pst : String) (phs : Headers) (b : String) :
    (finalize env ps pst phs b).body = some b := rfl

theorem finalize_status (env : Env) (ps : Nat) (pst : String) (phs : Headers) (b : String) :
    (finalize env ps pst phs b).status = ps := rfl

theorem finalize_statusText (env : Env) (ps : Nat) (pst : String) (phs : Headers) (b : String) :
    (finalize env ps pst phs b).statusText = pst := rfl

theorem finalize_ETag (env : Env) (ps : Nat) (pst : String) (phs : Headers) (b : String) :
    headerGet (finalize env ps pst phs b).headers "ETag" =
      some ("W/\"" ++ jsSlice (sha256Hex b) 16 ++ "\"") := by
  simp only [finalize]
  rw [headerGet_ite _ _ _ _ (by decide), headerGet_ite _ _ _ _ (by decide),
    headerGet_set_ne _ _ _ _ (by decide), headerGet_set_ne _ _ _ _ (by decide),
    headerGet_set_eq _ _ _ _ (by decide)]

theorem finalize_LM (env : Env) (ps : Nat) (pst : String) (phs : Headers) (b : String) :
    headerGet (finalize env ps pst phs b).headers "Last-Modified" =
      some (toUTCStringOfMillis (lmOf env)) := by
  simp only [finalize, lmOf]
  rw [headerGet_ite _ _ _ _ (by decide), headerGet_ite _ _ _ _ (by decide),
    headerGet_set_ne _ _ _ _ (by decide), headerGet_set_eq _ _ _ _ (by decide)]

theorem onRequest_html (env : Env) (b : String)
    (h : jsIncludes ((headerGet env.origin.headers "content-type").getD "") "text/html" = true) :
    onRequest env b =
      (finalize env env.origin.status env.origin.statusText env.origin.headers b,
       ["/partials/header.html", "/partials/footer.html", "/styles/main.css"] ++
         (if (env.assets "/styles/main.css").isSome then [] else ["/styles/main"]) ++
         ["/styles/force-light.css"]) := by
  simp [onRequest, h]

theorem onRequest_nonHtml (env : Env) (b : String)
    (h : jsIncludes ((headerGet env.origin.headers "content-type").getD "") "text/html" = false) :
    onRequest env b = (env.origin, []) := by
  simp [onRequest, h]

theorem sha256_length (msg : List Nat) : (sha256 msg).length = 32 := rfl

theorem sha256Hex_length (s : String) : (sha256Hex s).toList.length = 64 := rfl

theorem etagDigest_length (s : String) : (jsSlice (sha256Hex s) 16).toList.length = 16 := rfl

theorem toList_append (a b : String) : (a ++ b).toList = a.toList ++ b.toList :=
  String.data_append a b

theorem jsonStringBody_plain (ds rest : List Char)
    (h : ∀ c ∈ ds, ¬ c = '"' ∧ ¬ c = '\\' ∧ 32 ≤ c.toNat) :
    jsonStringBody (ds ++ '"' :: rest) = some rest := by
  induction ds with
  | nil =>
    rw [List.nil_append, jsonStringBody.eq_def]
    rfl
  | cons c t ih =>
    obtain ⟨h1, h2, h3⟩ := h c (List.mem_cons_self c t)
    rw [List.cons_append, jsonStringBody.eq_def]
    dsimp only
    rw [if_neg h1, if_neg h2, if_pos h3]
    exact ih (fun c hm => h c (List.mem_cons_of_mem _ hm))

theorem jsonSkipWs_nonws (c : Char) (t : List Char) (h : isJsonWs c = false) :
    jsonSkipWs (c :: t) = c :: t := by
  simp [jsonSkipWs, List.dropWhile, h]

theorem jsonRun_value_objString (fuel : Nat) (t : List Char) :
    jsonRun JsonMode.value (fuel + 1) ('\x7b' :: '"' :: t) =
      jsonRun JsonMode.memberLoop fuel ('"' :: t) := rfl

theorem jsonRun_value_string (fuel : Nat) (t : List Char) :
    jsonRun JsonMode.value (fuel + 1) ('"' :: t) = jsonStringBody t := rfl

theorem jsonRun_member_step (fuel : Nat) (t : List Char) :
    jsonRun JsonMode.memberLoop (fuel + 1) ('"' :: t) =
      (match jsonStringBody t with
       | some r1 =>
         (match jsonSkipWs r1 with
          | ':' :: r2 =>
            (match jsonRun JsonMode.value fuel (jsonSkipWs r2) with
             | some r3 =>
               (match jsonSkipWs r3 with
                | ',' :: r4 => jsonRun JsonMode.memberLoop fuel (jsonSkipWs r4)
                | '\x7d' :: r4 => some r4
                | _ => none)
             | none => none)
          | _ => none)
       | none => none) := rfl

theorem jsonRun_member_colon (fuel : Nat) (t u : List Char)
    (h : jsonStringBody t = some (':' :: '"' :: u)) :
    jsonRun JsonMode.memberLoop (fuel + 1) ('"' :: t) =
      (match jsonRun JsonMode.value fuel ('"' :: u) with
       | some r3 =>
         (match jsonSkipWs r3 with
          | ',' :: r4 => jsonRun JsonMode.memberLoop fuel (jsonSkipWs r4)
          | '\x7d' :: r4 => some r4
          | _ => none)
       | none => none) := by
  rw [jsonRun_member_step, h]
  rfl

theorem ldBlock_toList (d : String) :
    ("\x7b\"dateModified\":\"" ++ d ++ "\"\x7d").toList =
      '\x7b' :: '"' :: ("dateModified".toList ++ '"' :: ':' :: '"' :: (d.toList ++ '"' :: '\x7d' :: [])) := by
  have hconc : "\x7b\"dateModified\":\"".toList =
      '\x7b' :: '"' :: ("dateModified".toList ++ ['"', ':', '"']) := by decide
  rw [toList_append, toList_append, hconc]
  have hc2 : "\"\x7d".toList = ['"', '\x7d'] := by decide
  rw [hc2]
  simp [List.append_assoc]

theorem isoSafeChars (d : String) (hd : ∀ c ∈ d.toList, isIsoDateChar c = true) :
    ∀ c ∈ d.toList, ¬ c = '"' ∧ ¬ c = '\\' ∧ 32 ≤ c.toNat := by
  intro c hc
  have h := hd c hc
  refine ⟨?_, ?_, ?_⟩
  · intro he; rw [he] at h; exact absurd h (by decide)
  · intro he; rw [he] at h; exact absurd h (by decide)
  · simp [isIsoDateChar] at h
    rcases h with h4 | h4
    · omega
    · rw [h4]; decide

theorem ldResult_runs (f : Nat) (d : String) (hd : ∀ c ∈ d.toList, isIsoDateChar c = true) :
    jsonRun JsonMode.value (f + 3)
      ('\x7b' :: '"' :: ("dateModified".toList ++ '"' :: ':' :: '"' :: (d.toList ++ '"' :: '\x7d' :: []))) =
      some [] := by
  have hkey : ∀ c ∈ "dateModified".toList, ¬ c = '"' ∧ ¬ c = '\\' ∧ 32 ≤ c.toNat := by decide
  rw [jsonRun_value_objString,
    jsonRun_member_colon _ _ _ (jsonStringBody_plain _ _ hkey),
    jsonRun_value_string, jsonStringBody_plain _ _ (isoSafeChars d hd)]
  rfl

theorem ldResult_valid (d : String) (hd : ∀ c ∈ d.toList, isIsoDateChar c = true) :
    isValidJson ("\x7b\"dateModified\":\"" ++ d ++ "\"\x7d") = true := by
  unfold isValidJson
  rw [ldBlock_toList]
  rw [jsonSkipWs_nonws _ _ (by decide)]
  obtain ⟨f, hf⟩ : ∃ f,
      2 * ('\x7b' :: '"' ::
        ("dateModified".toList ++ '"' :: ':' :: '"' :: (d.toList ++ '"' :: '\x7d' :: []))).length + 2 = f + 3 := by
    refine ⟨2 * ('\x7b' :: '"' ::
      ("dateModified".toList ++ '"' :: ':' :: '"' :: (d.toList ++ '"' :: '\x7d' :: []))).length - 1, ?_⟩
    simp [List.length_cons]
    omega
  rw [hf, ldResult_runs f d hd]
  rfl

theorem digitChar_isoChar (n : Nat) : isIsoDateChar (digitChar n) = true := by
  unfold digitChar
  have h : n % 10 < 10 := Nat.mod_lt _ (by decide)
  interval_cases h2 : n % 10 <;> simp_all <;> decide

theorem natDecDigitsAux_chars (fuel n : Nat) :
    ∀ c ∈ natDecDigitsAux fuel n, isIsoDateChar c = true := by
  induction fuel generalizing n with
  | zero => intro c hc; simp [natDecDigitsAux] at hc
  | succ fuel ih =>
    intro c hc
    unfold natDecDigitsAux at hc
    by_cases h : n < 10
    · simp [h] at hc
      rw [hc]; exact digitChar_isoChar n
    · simp [h] at hc
      rcases hc with hc | hc
      · exact ih (n / 10) c hc
      · rw [hc]; exact digitChar_isoChar (n % 10)

theorem padNat_chars (w n : Nat) : ∀ c ∈ (padNat w n).toList, isIsoDateChar c = true := by
  intro c hc
  simp [padNat, String.toList] at hc
  rcases hc with hc | hc
  · rw [hc.2]; decide
  · exact natDecDigitsAux_chars _ _ c hc

theorem padNat_min_length (w n : Nat) : w ≤ (padNat w n).toList.length := by
  simp [padNat, String.toList]
  omega

theorem jsSlice_toList (s : String) (n : Nat) : (jsSlice s n).toList = s.toList.take n := rfl

theorem isoDatePart_chars (ms : Nat) :
    ∀ c ∈ (isoDatePartOfMillis ms).toList, isIsoDateChar c = true := by
  intro c hc
  unfold isoDatePartOfMillis at hc
  rw [toList_append, toList_append, toList_append, toList_append] at hc
  simp only [List.mem_append] at hc
  rcases hc with ((((h | h) | h) | h) | h)
  · exact padNat_chars _ _ c h
  · rw [show c = '-' by simpa using h]; decide
  · exact padNat_chars _ _ c h
  · rw [show c = '-' by simpa using h]; decide
  · exact padNat_chars _ _ c h

theorem isoDatePart_min_length (ms : Nat) : 10 ≤ (isoDatePartOfMillis ms).toList.length := by
  unfold isoDatePartOfMillis
  rw [toList_append, toList_append, toList_append, toList_append]
  simp only [List.length_append]
  have h1 := padNat_min_length 4 (civilFromDays (ms / 86400000)).1
  have h2 := padNat_min_length 2 (civilFromDays (ms / 86400000)).2.1
  have h3 := padNat_min_length 2 (civilFromDays (ms / 86400000)).2.2
  have h4 : ("-" : String).toList.length = 1 := by decide
  omega

theorem isoDate_chars (ms : Nat) :
    ∀ c ∈ (jsSlice (isoStringOfMillis ms) 10).toList, isIsoDateChar c = true := by
  intro c hc
  rw [jsSlice_toList] at hc
  have hd : (isoStringOfMillis ms).toList =
      (isoDatePartOfMillis ms).toList ++ ("T".toList ++ ((isoTimePartOfMillis ms).toList ++ "Z".toList)) := by
    unfold isoStringOfMillis
    rw [toList_append, toList_append, toList_append]
    simp only [List.append_assoc]
  have h10 : 10 ≤ (isoDatePartOfMillis ms).toList.length := isoDatePart_min_length ms
  rw [hd, List.take_append_of_le_length h10] at hc
  exact isoDatePart_chars ms c ((List.take_prefix _ _).sublist.subset hc)

theorem replaceAux_nomatch (repl : List Char) (fuel : Nat) (l : List Char)
    (h : hasDateModifiedAux fuel l = false) :
    replaceDateModifiedAux repl fuel l = l := by
  induction fuel generalizing l with
  | zero => cases l <;> rfl
  | succ fuel ih =>
    cases l with
    | nil => rfl
    | cons c t =>
      rw [hasDateModifiedAux.eq_def] at h
      dsimp only at h
      rw [Bool.or_eq_false_iff] at h
      rcases hm : matchDateModified (c :: t) with _ | r
      · rw [replaceDateModifiedAux.eq_def]
        dsimp only
        rw [hm]
        exact congrArg (c :: ·) (ih t h.2)
      · rw [hm] at h
        exact absurd h.1 (by simp)

theorem replace_nomatch (isoDate src : String) (h : hasDateModified src = false) :
    replaceDateModified isoDate src = src := by
  unfold replaceDateModified
  rw [replaceAux_nomatch _ _ _ h]
  rfl

theorem ldReplace (d : String) :
    replaceDateModified d ldTestBlock = "\x7b\"dateModified\":\"" ++ d ++ "\"\x7d" := by
  have h : ("\x7b\"dateModified\":\"" ++ d ++ "\"\x7d").data =
      "\x7b\"dateModified\":\"".data ++ d.data ++ "\"\x7d".data := by
    simp [String.data_append]
  apply String.ext
  rw [h]
  simp [replaceDateModified, ldTestBlock, replaceDateModifiedAux, matchDateModified,
    String.toList, List.dropWhile, List.takeWhile, isJsSpace, isDateValueChar, Char.isDigit]


/-- C4: the route slug is computed by stripping exactly one trailing
slash, mapping the root path to "home", otherwise dropping the leading
slash and replacing every character outside `[A-Za-z0-9_-]` by `-` with
an empty result falling back to "home"; in particular "/financing" gives
"financing", "/" gives "home", and "/blog/my-post!" gives
"blog-my-post-". -/
theorem C4_route_slug :
    (∀ p : String, slugOf p = slugSpecOf p) ∧
    slugOf "/financing" = "financing" ∧ slugOf "/" = "home" ∧
    slugOf "/blog/my-post!" = "blog-my-post-" :=
  ⟨slug_refines_spec, by decide, by decide, by decide⟩

/-- C5: a non-HTML origin response is returned unchanged — the very
origin response object, hence byte-identical headers and body — with no
debug-marker header added, and the asset-fetch trace is empty, so the
bypass happens before any asset I/O. -/
theorem C5_nonhtml_passthrough (env : Env) (b : String)
    (h : jsIncludes ((headerGet env.origin.headers "content-type").getD "") "text/html" = false) :
    onRequest env b = (env.origin, []) ∧
    headerGet (onRequest env b).1.headers "x-aduplanet-injected" =
      headerGet env.origin.headers "x-aduplanet-injected" := by
  refine ⟨onRequest_nonHtml env b h, ?_⟩
  rw [onRequest_nonHtml env b h]

/-- C5 witness: a JSON origin response passes through unchanged with no
asset I/O. -/
theorem C5_witness :
    jsIncludes ((headerGet envJson.origin.headers "content-type").getD "") "text/html" = false ∧
    onRequest envJson "B" = (envJson.origin, []) :=
  ⟨by decide, (C5_nonhtml_passthrough envJson "B" (by decide)).1⟩

/-- C9: an origin response with no content-type header at all is treated
as non-HTML — the guard defaults the missing header to the empty string,
which never contains "text/html" — and is returned unchanged with no
asset I/O. -/
theorem C9_missing_content_type (env : Env) (b : String)
    (h : headerGet env.origin.headers "content-type" = none) :
    onRequest env b = (env.origin, []) := by
  apply onRequest_nonHtml
  rw [h]
  decide

/-- C9 witness: a concrete origin response with no content-type header
passes through unchanged. -/
theorem C9_witness :
    headerGet envNoCt.origin.headers "content-type" = none ∧
    onRequest envNoCt "x" = (envNoCt.origin, []) :=
  ⟨rfl, C9_missing_content_type envNoCt "x" rfl⟩

/-- C2: a nav anchor is marked `aria-current="page"` exactly when its
href with one trailing slash stripped equals the request's normalized
path (the root both-empty case included); non-matching anchors are
returned untouched; and for nav anchors "/", "/costs", "/financing" with
request path "/financing" or "/financing/", only the "/financing" anchor
is marked. -/
theorem C2_nav_current (env : Env) (el : Element) :
    (stripTrailingSlash ((elGetAttribute el "href").getD "") = stripTrailingSlash env.urlPath →
      (rulesOf env).navAnchorRule el = elSetAttribute el "aria-current" "page") ∧
    (¬ stripTrailingSlash ((elGetAttribute el "href").getD "") = stripTrailingSlash env.urlPath →
      (rulesOf env).navAnchorRule el = el) ∧
    (env.urlPath = "/financing" ∨ env.urlPath = "/financing/" →
      (rulesOf env).navAnchorRule (navAnchor "/") = navAnchor "/" ∧
      (rulesOf env).navAnchorRule (navAnchor "/costs") = navAnchor "/costs" ∧
      elGetAttribute ((rulesOf env).navAnchorRule (navAnchor "/financing")) "aria-current" =
        some "page") := by
  refine ⟨?_, ?_, ?_⟩
  · intro h
    show anchorHandler (stripTrailingSlash env.urlPath) el = elSetAttribute el "aria-current" "page"
    unfold anchorHandler
    rw [if_pos (Or.inl h)]
  · intro h
    show anchorHandler (stripTrailingSlash env.urlPath) el = el
    unfold anchorHandler
    have hc : ¬ (stripTrailingSlash ((elGetAttribute el "href").getD "") = stripTrailingSlash env.urlPath ∨
        (stripTrailingSlash ((elGetAttribute el "href").getD "") = "" ∧
          stripTrailingSlash env.urlPath = "")) := by
      intro hcond
      rcases hcond with h1 | ⟨h1, h2⟩
      · exact h h1
      · exact h (h1.trans h2.symm)
    rw [if_neg hc]
  · intro h
    have hrule : (rulesOf env).navAnchorRule = anchorHandler (stripTrailingSlash env.urlPath) := rfl
    rcases h with h | h <;> rw [hrule, h] <;> exact ⟨rfl, rfl, rfl⟩

/-- C2 witness: with request path "/financing", the "/costs" anchor is
untouched and the "/financing" anchor is marked current. -/
theorem C2_witness :
    (rulesOf envGet).navAnchorRule (navAnchor "/costs") = navAnchor "/costs" ∧
    elGetAttribute ((rulesOf envGet).navAnchorRule (navAnchor "/financing")) "aria-current" =
      some "page" :=
  ⟨((C2_nav_current envGet blankEl).2.2 (Or.inl rfl)).2.1,
   ((C2_nav_current envGet blankEl).2.2 (Or.inl rfl)).2.2⟩

/-- C7: the content appended to head is, in order: the primary
stylesheet link when a primary stylesheet asset exists (else the inline
fallback style), then the force-light stylesheet link when that asset
exists, then the updated-time meta tag carrying the ISO instant of the
captured clock read. -/
theorem C7_head_insertion_order (env : Env) (el : Element) :
    ((rulesOf env).headRule el).appendedContent =
      el.appendedContent ++ primaryHeadTags (cssHrefOf env.assets) ++
        forceHeadTags (forceCssHrefOf env.assets) ++
        [ogUpdatedMetaTag (isoStringOfMillis (env.clock 0))] := by
  show (headHandler (cssHrefOf env.assets) (forceCssHrefOf env.assets)
      (freshnessOfMillis (env.clock 0)).isoFull el).appendedContent = _
  unfold headHandler freshnessOfMillis
  cases cssHrefOf env.assets <;> cases forceCssHrefOf env.assets <;>
    simp [elAppend, primaryHeadTags, forceHeadTags, List.append_assoc]

/-- C10: a partial asset fetch that succeeds with empty text is treated
exactly like a missing asset: the header and footer rules substitute the
built-in fallback fragments, and the selected partials coincide with
those of a store where the assets are absent. -/
theorem C10_empty_partial_fallback (env env2 : Env) (el : Element)
    (hh : env.assets "/partials/header.html" = some "")
    (hf : env.assets "/partials/footer.html" = some "")
    (h2h : env2.assets "/partials/header.html" = none)
    (h2f : env2.assets "/partials/footer.html" = none) :
    (rulesOf env).headerRule el = elSetInnerContent el fallbackHeaderHTML ∧
    (rulesOf env).footerRule el = elSetInnerContent el fallbackFooterHTML ∧
    selectHeaderHTML env.assets = selectHeaderHTML env2.assets ∧
    selectFooterHTML env.assets = selectFooterHTML env2.assets := by
  refine ⟨?_, ?_, ?_, ?_⟩ <;>
    simp [rulesOf, selectHeaderHTML, selectFooterHTML, hh, hf, h2h, h2f]

/-- C10 witness: a store whose partials fetch as empty text yields the
built-in header fallback, just like a store with no partials at all. -/
theorem C10_witness :
    envEmptyPartials.assets "/partials/header.html" = some "" ∧
    (rulesOf envEmptyPartials).headerRule blankEl =
      elSetInnerContent blankEl fallbackHeaderHTML ∧
    selectHeaderHTML envEmptyPartials.assets = selectHeaderHTML envNoAssets.assets :=
  ⟨by decide,
   (C10_empty_partial_fallback envEmptyPartials envNoAssets blankEl
      (by decide) (by decide) rfl rfl).1,
   (C10_empty_partial_fallback envEmptyPartials envNoAssets blankEl
      (by decide) (by decide) rfl rfl).2.2.1⟩


/-- C3: for every non-HEAD HTML request, the final response's ETag is the
weak validator built from the 16-character prefix of the SHA-256 hex
digest of exactly the final transformed body bytes, set after the
rewrites over whatever headers (any origin ETag included) the pipeline
carried; the digest prefix has fixed length 16, and any two runs whose
final bodies are byte-identical emit identical ETags. -/
theorem C3_weak_etag (env : Env) (b : String)
    (_hm : ¬ env.method = "HEAD")
    (hh : jsIncludes ((headerGet env.origin.headers "content-type").getD "") "text/html" = true) :
    headerGet (onRequest env b).1.headers "ETag" =
      some ("W/\"" ++ jsSlice (sha256Hex b) 16 ++ "\"") ∧
    (jsSlice (sha256Hex b) 16).toList.length = 16 ∧
    (∀ env2 b2, ¬ env2.method = "HEAD" →
      jsIncludes ((headerGet env2.origin.headers "content-type").getD "") "text/html" = true →
      b2 = b →
      headerGet (onRequest env2 b2).1.headers "ETag" =
        headerGet (onRequest env b).1.headers "ETag") := by
  have h1 : headerGet (onRequest env b).1.headers "ETag" =
      some ("W/\"" ++ jsSlice (sha256Hex b) 16 ++ "\"") := by
    rw [onRequest_html env b hh]
    exact finalize_ETag env env.origin.status env.origin.statusText env.origin.headers b
  refine ⟨h1, etagDigest_length b, ?_⟩
  intro env2 b2 _ hh2 hb
  rw [onRequest_html env2 b2 hh2, h1, hb]
  exact finalize_ETag env2 env2.origin.status env2.origin.statusText env2.origin.headers b

set_option maxRecDepth 100000 in
/-- C3 witness: a concrete GET HTML request with empty transformed body
carries the weak ETag of the empty body's digest prefix. -/
theorem C3_witness :
    (¬ envGet.method = "HEAD") ∧
    headerGet (onRequest envGet "").1.headers "ETag" = some "W/\"e3b0c44298fc1c14\"" := by
  refine ⟨by decide, ?_⟩
  rw [(C3_weak_etag envGet "" (by decide) (by decide)).1]
  decide

set_option maxRecDepth 100000 in
/-- C1 counterexample: for the concrete HEAD request `envHead` against an
HTML origin, the emitted response does not have a null body and does not
lack an ETag header — refuting the claim that HEAD responses carry a null
body and no ETag. -/
theorem C1_counterexample :
    ¬ ((onRequest envHead "").1.body = none ∧
       headerGet (onRequest envHead "").1.headers "ETag" = none) := by
  intro h
  exact absurd h.1 (by decide)

/-- C1 (amended): the finalizer never consults the request method: a HEAD
HTML request is finalized exactly like any other method — the transformed
body is materialized and hashed, emitted as the response body together
with a weak ETag over its bytes, while the pipeline's status and status
text are preserved. -/
theorem C1_head_not_special (env : Env) (b : String)
    (_hm : env.method = "HEAD")
    (hh : jsIncludes ((headerGet env.origin.headers "content-type").getD "") "text/html" = true) :
    (onRequest env b).1.body = some b ∧
    headerGet (onRequest env b).1.headers "ETag" =
      some ("W/\"" ++ jsSlice (sha256Hex b) 16 ++ "\"") ∧
    (onRequest env b).1.status = env.origin.status ∧
    (onRequest env b).1.statusText = env.origin.statusText := by
  rw [onRequest_html env b hh]
  exact ⟨finalize_body env env.origin.status env.origin.statusText env.origin.headers b,
    finalize_ETag env env.origin.status env.origin.statusText env.origin.headers b,
    finalize_status env env.origin.status env.origin.statusText env.origin.headers b,
    finalize_statusText env env.origin.status env.origin.statusText env.origin.headers b⟩

set_option maxRecDepth 100000 in
/-- C1 witness: the concrete HEAD request is materialized with its
(empty) transformed body. -/
theorem C1_witness :
    envHead.method = "HEAD" ∧ (onRequest envHead "").1.body = some "" :=
  ⟨rfl, (C1_head_not_special envHead "" rfl (by decide)).1⟩

set_option maxRecDepth 100000 in
/-- C8 counterexample: with no commit instant and a clock whose second
read is one day after the captured instant, Last-Modified is not derived
from the captured request instant (clock read 0) — refuting the claim
that it reuses the single captured instant. -/
theorem C8_counterexample :
    ¬ (headerGet (onRequest envClockSkew "").1.headers "Last-Modified" =
        some (toUTCStringOfMillis (envClockSkew.clock 0))) := by
  decide

/-- C8 (amended): for every HTML request, Last-Modified is derived from
`lmOf env` — the commit instant when supplied and nonzero, else a fresh
second clock read (read index 1) taken at finalization, not the captured
instant (read index 0); the captured instant is what the updated-time
meta tag appended last into head carries. -/
theorem C8_last_modified_source (env : Env) (b : String) (el : Element)
    (hh : jsIncludes ((headerGet env.origin.headers "content-type").getD "") "text/html" = true) :
    headerGet (onRequest env b).1.headers "Last-Modified" =
      some (toUTCStringOfMillis (lmOf env)) ∧
    (env.commitTime = none → lmOf env = env.clock 1) ∧
    (∀ t, env.commitTime = some t → ¬ t = 0 → lmOf env = t) ∧
    ((rulesOf env).headRule el).appendedContent.getLast? =
      some (ogUpdatedMetaTag (isoStringOfMillis (env.clock 0))) := by
  refine ⟨?_, ?_, ?_, ?_⟩
  · rw [onRequest_html env b hh]
    exact finalize_LM env env.origin.status env.origin.statusText env.origin.headers b
  · intro h
    simp [lmOf, h]
  · intro t ht h0
    simp [lmOf, ht, h0]
  · show ((elAppend _ (ogUpdatedMetaTag (freshnessOfMillis (env.clock 0)).isoFull)).appendedContent).getLast? = _
    unfold elAppend
    rw [List.getLast?_concat]
    rfl

set_option maxRecDepth 100000 in
/-- C8 witness: with the skewed clock and no commit instant, the emitted
Last-Modified renders the second clock read, one day after the epoch. -/
theorem C8_witness :
    headerGet (onRequest envClockSkew "").1.headers "Last-Modified" =
      some "Fri, 02 Jan 1970 00:00:00 GMT" := by
  rw [(C8_last_modified_source envClockSkew "" blankEl (by decide)).1]
  decide

/-- C6: the structured-data rule is an opaque text replacement: on a
block holding exactly one `dateModified` key/value pair it rewrites that
value to the request's isoDate and leaves every other byte unchanged, the
result is still syntactically valid JSON, and a block with no matching
occurrence is left untouched. -/
theorem C6_ldjson_patch (env : Env) :
    (rulesOf env).ldJsonRule ldTestBlock =
      "\x7b\"dateModified\":\"" ++ jsSlice (isoStringOfMillis (env.clock 0)) 10 ++ "\"\x7d" ∧
    isValidJson ((rulesOf env).ldJsonRule ldTestBlock) = true ∧
    (∀ src, hasDateModified src = false → (rulesOf env).ldJsonRule src = src) := by
  have hrule : (rulesOf env).ldJsonRule =
      replaceDateModified (jsSlice (isoStringOfMillis (env.clock 0)) 10) := rfl
  refine ⟨?_, ?_, ?_⟩
  · rw [hrule]
    exact ldReplace _
  · rw [hrule, ldReplace _]
    exact ldResult_valid _ (isoDate_chars (env.clock 0))
  · intro src h
    rw [hrule]
    exact replace_nomatch _ _ h

set_option maxRecDepth 100000 in
/-- C6 witness: at the epoch instant the test block's date becomes
1970-01-01 and a block without the pattern is untouched. -/
theorem C6_witness :
    (rulesOf envGet).ldJsonRule ldTestBlock = "\x7b\"dateModified\":\"1970-01-01\"\x7d" ∧
    hasDateModified "plain text" = false ∧
    (rulesOf envGet).ldJsonRule "plain text" = "plain text" := by
  refine ⟨?_, by decide, (C6_ldjson_patch envGet).2.2 "plain text" (by decide)⟩
  rw [(C6_ldjson_patch envGet).1]
  decide

end AduPlanet
